import Mathlib

/-!
Verification development for the AnchorKit verifiable-operation ledger.

The repository's `src/types.rs` declares the data model (Soroban contract
types). The data structures below embed those declarations field-for-field:
`u64`/`u32` become `Nat`, `Address` becomes an abstract `Nat` identifier,
`Bytes`/`BytesN<32>` become abstract `Nat` tokens, and Soroban `String`
becomes Lean `String`.

The behavioral core (session manager, attestation registry, quote
aggregator, audit ledger) is declared in the spec but its code is not under
`src/`; those operations are modelled from the spec, each marked
`Modelled from the spec:` in its doc comment.
-/

namespace AnchorKit

/-- Abstract Soroban `Address`: an opaque identifier. -/
abbrev Address := Nat

/-- Embedded from `src/types.rs` lines 3-12: `Attestation`
`{id: u64, issuer: Address, subject: Address, timestamp: u64,
payload_hash: BytesN<32>, signature: Bytes}`. -/
structure Attestation where
  id : Nat
  issuer : Address
  subject : Address
  timestamp : Nat
  payload_hash : Nat
  signature : Nat
deriving DecidableEq, Repr

/-- Embedded from `src/types.rs` lines 14-20: `Endpoint`
`{url: String, attestor: Address, is_active: bool}`. -/
structure Endpoint where
  url : String
  attestor : Address
  is_active : Bool
deriving DecidableEq, Repr

/-- Embedded from `src/types.rs` lines 23-32: `ServiceType`, a closed
enumeration `{Deposits = 1, Withdrawals = 2, Quotes = 3, KYC = 4}`. -/
inductive ServiceType where
  | Deposits
  | Withdrawals
  | Quotes
  | KYC
deriving DecidableEq, Repr

/-- The `repr(u32)` discriminant of a `ServiceType`, used for the derived
`Ord` instance in the source. -/
def ServiceType.code : ServiceType → Nat
  | .Deposits => 1
  | .Withdrawals => 2
  | .Quotes => 3
  | .KYC => 4

/-- Embedded from `src/types.rs` lines 34-39: `AnchorServices`
`{anchor: Address, services: Vec<ServiceType>}`. -/
structure AnchorServices where
  anchor : Address
  services : List ServiceType
deriving DecidableEq, Repr

/-- Embedded from `src/types.rs` lines 42-55: `QuoteData`. Rates and fees
are in basis points (`10000 = 1.0`); `valid_until` is a unix timestamp. -/
structure QuoteData where
  anchor : Address
  base_asset : String
  quote_asset : String
  rate : Nat
  fee_percentage : Nat
  minimum_amount : Nat
  maximum_amount : Nat
  valid_until : Nat
  quote_id : Nat
deriving DecidableEq, Repr

/-- Embedded from `src/types.rs` lines 57-64: `RateComparison`
`{best_quote, all_quotes, comparison_timestamp}`, a derived result. -/
structure RateComparison where
  best_quote : QuoteData
  all_quotes : List QuoteData
  comparison_timestamp : Nat
deriving DecidableEq, Repr

/-- Embedded from `src/types.rs` lines 66-74: `QuoteRequest`
`{base_asset, quote_asset, amount, operation_type}`. Note the declared type
of `operation_type` is the full `ServiceType` enumeration. -/
structure QuoteRequest where
  base_asset : String
  quote_asset : String
  amount : Nat
  operation_type : ServiceType
deriving DecidableEq, Repr

/-- Embedded from `src/types.rs` lines 76-91: `InteractionSession`
`{session_id, initiator, created_at, operation_count, nonce}`. -/
structure InteractionSession where
  session_id : Nat
  initiator : Address
  created_at : Nat
  operation_count : Nat
  nonce : Nat
deriving DecidableEq, Repr

/-- Embedded from `src/types.rs` lines 93-110: `OperationContext`
`{session_id, operation_index, operation_type, timestamp, status,
result_data}`. `result_data` is a plain `u64`, not an `Option`. -/
structure OperationContext where
  session_id : Nat
  operation_index : Nat
  operation_type : String
  timestamp : Nat
  status : String
  result_data : Nat
deriving DecidableEq, Repr

/-- Embedded from `src/types.rs` lines 112-125: `AuditLog`
`{log_id, session_id, operation, actor}`. -/
structure AuditLog where
  log_id : Nat
  session_id : Nat
  operation : OperationContext
  actor : Address
deriving DecidableEq, Repr

/-- Modelled from the spec (§7): the typed error kinds. The error enum
itself is not declared under `src/`. -/
inductive AnchorError where
  | ReplayRejected
  | UnknownSession
  | InvalidSignature
  | InactiveIssuer
  | DuplicateAttestation
  | InvalidQuoteRange
  | QuoteExpired
  | UnauthorizedService
  | NoEligibleQuotes
deriving DecidableEq, Repr

/-- Modelled from the spec (§6, external collaborators): the endpoint
registry, anchor-service registry and injected signature primitive.
`sigVerify issuer subject payload_hash timestamp signature` stands for
`verify(key_of issuer, canonical_bytes (issuer, subject, payload_hash,
timestamp), signature)`. -/
structure Env where
  endpoints : Address → Option Endpoint
  services : Address → Option AnchorServices
  sigVerify : Address → Address → Nat → Nat → Nat → Bool

/-- Modelled from the spec (§3, ownership): the aggregate state owned by
the core — sessions, attestations, quotes, the audit ledger and the
monotonic id allocators. None of this storage is declared under `src/`. -/
structure SystemState where
  sessions : List InteractionSession
  attestations : List Attestation
  next_attestation_id : Nat
  quotes : List QuoteData
  audit_log : List AuditLog
  next_log_id : Nat
  next_session_id : Nat
deriving DecidableEq, Repr

/-- The empty initial state: no sessions, no attestations, no quotes, an
empty ledger, all allocators at zero. -/
def initState : SystemState :=
  { sessions := []
    attestations := []
    next_attestation_id := 0
    quotes := []
    audit_log := []
    next_log_id := 0
    next_session_id := 0 }

/-- Look up a session by `session_id`. -/
def findSession (s : SystemState) (sid : Nat) : Option InteractionSession :=
  s.sessions.find? (fun x => x.session_id == sid)

/-- Replace the stored session with the same `session_id` as `sess`. -/
def updateSession (s : SystemState) (sess : InteractionSession) : SystemState :=
  { s with sessions :=
      s.sessions.map (fun x => if x.session_id = sess.session_id then sess else x) }

/-- Modelled from the spec (§4.1): `open_session(initiator)` allocates a
fresh `session_id`, sets `created_at` to the current time, `nonce = 0`,
`operation_count = 0`. -/
def open_session (s : SystemState) (initiator : Address) (now : Nat) :
    SystemState × InteractionSession :=
  let sess : InteractionSession :=
    { session_id := s.next_session_id
      initiator := initiator
      created_at := now
      operation_count := 0
      nonce := 0 }
  ({ s with sessions := s.sessions ++ [sess]
            next_session_id := s.next_session_id + 1 }, sess)

/-- Modelled from the spec (§4.1): `begin_operation` on a session value —
fails with `ReplayRejected` if `expected_nonce != session.nonce`; on
success increments `session.nonce`, assigns
`operation_index = operation_count`, increments `operation_count`, and
returns a context stamped with the current timestamp and pending status. -/
def begin_operation (sess : InteractionSession) (expected_nonce : Nat)
    (op_type : String) (now : Nat) :
    Except AnchorError (InteractionSession × OperationContext) :=
  if expected_nonce ≠ sess.nonce then
    .error .ReplayRejected
  else
    let ctx : OperationContext :=
      { session_id := sess.session_id
        operation_index := sess.operation_count
        operation_type := op_type
        timestamp := now
        status := "pending"
        result_data := 0 }
    .ok ({ sess with nonce := sess.nonce + 1
                     operation_count := sess.operation_count + 1 }, ctx)

/-- Modelled from the spec (§4.1): `begin_operation` at the state level:
unknown sessions are reported with `UnknownSession`; failures leave the
state unchanged. -/
def begin_operation_state (s : SystemState) (sid expected_nonce : Nat)
    (op_type : String) (now : Nat) :
    SystemState × Except AnchorError OperationContext :=
  match findSession s sid with
  | none => (s, .error .UnknownSession)
  | some sess =>
    match begin_operation sess expected_nonce op_type now with
    | .error e => (s, .error e)
    | .ok (sess', ctx) => (updateSession s sess', .ok ctx)

/-- Modelled from the spec (§4.1): `finalize_operation(context, status,
result_data)` fills in the final status and result. -/
def finalize_operation (ctx : OperationContext) (status : String)
    (result_data : Nat) : OperationContext :=
  { ctx with status := status, result_data := result_data }

/-- Modelled from the spec (§4.4): `append(operation, actor)` assigns the
next `log_id` and stores the entry at the end of the ledger. -/
def append (s : SystemState) (operation : OperationContext) (actor : Address) :
    SystemState × AuditLog :=
  let entry : AuditLog :=
    { log_id := s.next_log_id
      session_id := operation.session_id
      operation := operation
      actor := actor }
  ({ s with audit_log := s.audit_log ++ [entry]
            next_log_id := s.next_log_id + 1 }, entry)

/-- The result value an audit-log reader observes for an entry: the
`result_data` field of the recorded `OperationContext`. -/
def readResult (l : AuditLog) : Nat :=
  l.operation.result_data

/-- Whether an attestation matches the identity tuple
`(issuer, subject, payload_hash, timestamp, signature)`. -/
def attMatches (issuer subject : Address) (payload_hash timestamp signature : Nat)
    (a : Attestation) : Bool :=
  a.issuer == issuer && a.subject == subject && a.payload_hash == payload_hash
    && a.timestamp == timestamp && a.signature == signature

/-- Modelled from the spec (§4.2): `issue_attestation` — a session-wrapped
mutating call. Checks, in order: nonce (via `begin_operation`), issuer
endpoint active (`InactiveIssuer` if inactive or absent), signature over
`(issuer, subject, payload_hash, timestamp)` (`InvalidSignature`),
duplicate identity tuple (`DuplicateAttestation`). On success allocates a
new id, stores the attestation and appends one audit entry with
`result_data = id`. Any failure returns the original state. -/
def issue_attestation (env : Env) (s : SystemState) (issuer subject : Address)
    (payload_hash signature : Nat) (sid expected_nonce now : Nat)
    (actor : Address) : SystemState × Except AnchorError Nat :=
  match begin_operation_state s sid expected_nonce "attest" now with
  | (_, .error e) => (s, .error e)
  | (s1, .ok ctx) =>
    match env.endpoints issuer with
    | none => (s, .error .InactiveIssuer)
    | some ep =>
      if ep.is_active = false then
        (s, .error .InactiveIssuer)
      else if env.sigVerify issuer subject payload_hash now signature = false then
        (s, .error .InvalidSignature)
      else if s1.attestations.any (attMatches issuer subject payload_hash now signature) then
        (s, .error .DuplicateAttestation)
      else
        let att : Attestation :=
          { id := s1.next_attestation_id
            issuer := issuer
            subject := subject
            timestamp := now
            payload_hash := payload_hash
            signature := signature }
        let ctx' := finalize_operation ctx "success" att.id
        let s2 := { s1 with attestations := s1.attestations ++ [att]
                            next_attestation_id := s1.next_attestation_id + 1 }
        ((append s2 ctx' actor).1, .ok att.id)

/-- Modelled from the spec (§4.2): `verify_attestation(id,
expected_payload_hash)` — a pure lookup; returns `false` (not an error) if
the hash mismatches or the id is unknown. Takes the state read-only and
returns only a `Bool`. -/
def verify_attestation (s : SystemState) (id expected_payload_hash : Nat) : Bool :=
  match s.attestations.find? (fun a => a.id == id) with
  | none => false
  | some a => a.payload_hash == expected_payload_hash

/-- Whether `anchor` is authorized for service type `st` per the external
anchor-service registry. -/
def serviceAuthorized (env : Env) (anchor : Address) (st : ServiceType) : Bool :=
  match env.services anchor with
  | none => false
  | some cfg => cfg.services.contains st

/-- Modelled from the spec (§4.3): `submit_quote(anchor, quote)` — a
session-wrapped mutating call. Requires the anchor's Quotes capability
(`UnauthorizedService`), validates `minimum_amount ≤ maximum_amount` and
`rate > 0` (`InvalidQuoteRange`) and `valid_until` strictly in the future
(`QuoteExpired`); stores the quote and logs one audit entry. Any failure
returns the original state. -/
def submit_quote (env : Env) (s : SystemState) (anchor : Address)
    (q : QuoteData) (sid expected_nonce now : Nat) (actor : Address) :
    SystemState × Except AnchorError Unit :=
  match begin_operation_state s sid expected_nonce "endpoint" now with
  | (_, .error e) => (s, .error e)
  | (s1, .ok ctx) =>
    if serviceAuthorized env anchor .Quotes = false then
      (s, .error .UnauthorizedService)
    else if ¬ (q.minimum_amount ≤ q.maximum_amount ∧ 0 < q.rate) then
      (s, .error .InvalidQuoteRange)
    else if ¬ (now < q.valid_until) then
      (s, .error .QuoteExpired)
    else
      let ctx' := finalize_operation ctx "success" q.quote_id
      let s2 := { s1 with quotes := s1.quotes ++ [q] }
      ((append s2 ctx' actor).1, .ok ())

/-- Modelled from the spec (§4.3): the effective cost of a quote under the
buyer-pays-fee convention,
`effective_cost = rate × (10000 + fee_percentage) / 10000`. -/
def effective_cost (q : QuoteData) : Nat :=
  q.rate * (10000 + q.fee_percentage) / 10000

/-- Modelled from the spec (§4.3): a quote is eligible for request `r` at
time `now` when the asset pair matches, the anchor is authorized for
`r.operation_type`, `valid_until > now`, and
`minimum_amount ≤ r.amount ≤ maximum_amount`. -/
def eligible (env : Env) (now : Nat) (r : QuoteRequest) (q : QuoteData) : Bool :=
  q.base_asset == r.base_asset && q.quote_asset == r.quote_asset
    && serviceAuthorized env q.anchor r.operation_type
    && decide (now < q.valid_until)
    && decide (q.minimum_amount ≤ r.amount)
    && decide (r.amount ≤ q.maximum_amount)

/-- Modelled from the spec (§4.3): quote `a` strictly beats quote `b` —
lower effective cost; tie-break on lower `fee_percentage`, then lower
`quote_id`. -/
def betterQuote (a b : QuoteData) : Bool :=
  decide (effective_cost a < effective_cost b)
    || (effective_cost a == effective_cost b
        && (decide (a.fee_percentage < b.fee_percentage)
            || (a.fee_percentage == b.fee_percentage
                && decide (a.quote_id < b.quote_id))))

/-- Modelled from the spec (§4.3): select the best quote of a non-empty
eligible set by folding the `betterQuote` comparison. -/
def selectBest (h : QuoteData) (t : List QuoteData) : QuoteData :=
  t.foldl (fun b q => if betterQuote q b then q else b) h

/-- Modelled from the spec (§4.3): `compare_quotes(request)` — gathers all
eligible stored quotes, fails with `NoEligibleQuotes` if none, otherwise
returns the best quote together with the full filtered set stamped with the
comparison time, and logs a comparison operation whose `result_data` is the
winning `quote_id`. Any failure returns the original state. -/
def compare_quotes (env : Env) (s : SystemState) (r : QuoteRequest)
    (sid expected_nonce now : Nat) (actor : Address) :
    SystemState × Except AnchorError RateComparison :=
  match begin_operation_state s sid expected_nonce "comparison" now with
  | (_, .error e) => (s, .error e)
  | (s1, .ok ctx) =>
    match s1.quotes.filter (eligible env now r) with
    | [] => (s, .error .NoEligibleQuotes)
    | best0 :: rest =>
      let best := selectBest best0 rest
      let ctx' := finalize_operation ctx "success" best.quote_id
      ((append s1 ctx' actor).1,
       .ok { best_quote := best
             all_quotes := best0 :: rest
             comparison_timestamp := now })

/-- Whether an `Except` result is a success. -/
def exceptIsOk {ε α : Type} : Except ε α → Bool
  | .ok _ => true
  | .error _ => false

/-- The comparison key of a quote: effective cost, then fee, then id —
the lexicographic order the spec's tie-breaking induces. -/
def quoteKey (q : QuoteData) : Nat × Nat × Nat :=
  (effective_cost q, q.fee_percentage, q.quote_id)

/-- Strict lexicographic order on comparison keys. -/
def keyLt (x y : Nat × Nat × Nat) : Prop :=
  x.1 < y.1 ∨ (x.1 = y.1 ∧ (x.2.1 < y.2.1 ∨ (x.2.1 = y.2.1 ∧ x.2.2 < y.2.2)))

/-- Reflexive lexicographic order on comparison keys. -/
def keyLe (x y : Nat × Nat × Nat) : Prop :=
  x.1 < y.1 ∨ (x.1 = y.1 ∧ (x.2.1 < y.2.1 ∨ (x.2.1 = y.2.1 ∧ x.2.2 ≤ y.2.2)))

/-- `a` is at least as good a quote as `b`: lower effective cost, with
ties resolved by lower fee, then lower quote id. -/
def quoteKeyLe (a b : QuoteData) : Prop :=
  keyLe (quoteKey a) (quoteKey b)

/-- Modelled from the spec (§5, §6): one mutating call of the exposed
surface, applied at an arbitrary input. -/
inductive Step (env : Env) : SystemState → SystemState → Prop where
  | open_session : ∀ s initiator now,
      Step env s (open_session s initiator now).1
  | issue : ∀ s issuer subject ph sig sid n now actor,
      Step env s (issue_attestation env s issuer subject ph sig sid n now actor).1
  | submit : ∀ s anchor q sid n now actor,
      Step env s (submit_quote env s anchor q sid n now actor).1
  | compare : ∀ s r sid n now actor,
      Step env s (compare_quotes env s r sid n now actor).1

/-- States reachable from the empty initial state by mutating calls. -/
inductive Reachable (env : Env) : SystemState → Prop where
  | init : Reachable env initState
  | step : ∀ {s s'}, Reachable env s → Step env s s' → Reachable env s'

/-- How one step may change the ledger: either untouched, or exactly one
entry appended carrying the next `log_id`. -/
def AuditStep (s s' : SystemState) : Prop :=
  (s'.audit_log = s.audit_log ∧ s'.next_log_id = s.next_log_id) ∨
  (∃ e : AuditLog, s'.audit_log = s.audit_log ++ [e] ∧
     e.log_id = s.next_log_id ∧ s'.next_log_id = s.next_log_id + 1)

/-- How one step may change the quote store: either untouched, or exactly
one validated quote appended. -/
def QuoteStep (s s' : SystemState) : Prop :=
  s'.quotes = s.quotes ∨
  (∃ q : QuoteData, s'.quotes = s.quotes ++ [q] ∧
     q.minimum_amount ≤ q.maximum_amount ∧ 0 < q.rate)

/-- How one step may change the attestation store: either untouched, or
exactly one attestation appended carrying the next id. -/
def AttStep (s s' : SystemState) : Prop :=
  (s'.attestations = s.attestations ∧
     s'.next_attestation_id = s.next_attestation_id) ∨
  (∃ a : Attestation, s'.attestations = s.attestations ++ [a] ∧
     a.id = s.next_attestation_id ∧
     s'.next_attestation_id = s.next_attestation_id + 1)

/-- The system invariant: the ledger's ids are exactly `0, …, len-1` in
append order, attestation ids are below the allocator, and every stored
quote passed range validation. -/
def Inv (s : SystemState) : Prop :=
  s.next_log_id = s.audit_log.length ∧
  s.audit_log.map AuditLog.log_id = List.range s.audit_log.length ∧
  (∀ a ∈ s.attestations, a.id < s.next_attestation_id) ∧
  (∀ q ∈ s.quotes, q.minimum_amount ≤ q.maximum_amount ∧ 0 < q.rate)

/-! Concrete instances used to witness the theorems below. -/

/-- A concrete active endpoint for issuer `1`. -/
def wEp1 : Endpoint := { url := "https://a.example", attestor := 1, is_active := true }

/-- A concrete deactivated endpoint for issuer `2`. -/
def wEp2 : Endpoint := { url := "https://b.example", attestor := 2, is_active := false }

/-- A concrete environment: issuer `1` active, issuer `2` inactive, anchor
`7` authorized for Quotes and Deposits, signatures always verifying. -/
def wEnv : Env :=
  { endpoints := fun a => if a = 1 then some wEp1 else if a = 2 then some wEp2 else none
    services := fun a =>
      if a = 7 then some { anchor := 7, services := [ServiceType.Quotes, ServiceType.Deposits] }
      else none
    sigVerify := fun _ _ _ _ _ => true }

/-- The state after opening one session from the initial state. -/
def wS0 : SystemState := (open_session initState 5 0).1

/-- The state after one successful attestation issuance in `wS0`. -/
def wS1 : SystemState := (issue_attestation wEnv wS0 1 3 11 22 0 0 10 5).1

/-- A concrete quote from anchor `7`. -/
def wQA : QuoteData :=
  { anchor := 7, base_asset := "X", quote_asset := "Y", rate := 10000
    fee_percentage := 50, minimum_amount := 1, maximum_amount := 100
    valid_until := 1000, quote_id := 1 }

/-- A second concrete quote from anchor `7`, cheaper in effective cost. -/
def wQB : QuoteData :=
  { anchor := 7, base_asset := "X", quote_asset := "Y", rate := 9900
    fee_percentage := 100, minimum_amount := 1, maximum_amount := 100
    valid_until := 1000, quote_id := 2 }

/-- A quote violating `minimum_amount ≤ maximum_amount`. -/
def wBadQuote : QuoteData :=
  { anchor := 7, base_asset := "X", quote_asset := "Y", rate := 100
    fee_percentage := 0, minimum_amount := 10, maximum_amount := 5
    valid_until := 1000, quote_id := 9 }

/-- A concrete session with nonce `0`. -/
def wSessQ : InteractionSession :=
  { session_id := 0, initiator := 5, created_at := 0, operation_count := 0, nonce := 0 }

/-- A concrete state holding `wQA` then `wQB`. -/
def wQ1 : SystemState :=
  { sessions := [wSessQ], attestations := [], next_attestation_id := 0
    quotes := [wQA, wQB], audit_log := [], next_log_id := 0, next_session_id := 1 }

/-- The same state with the quotes stored in the opposite order. -/
def wQ2 : SystemState := { wQ1 with quotes := [wQB, wQA] }

/-- A concrete deposit quote request matching both stored quotes. -/
def wReq : QuoteRequest :=
  { base_asset := "X", quote_asset := "Y", amount := 10
    operation_type := ServiceType.Deposits }

/-- A quote request carrying the `Quotes` variant as its operation type. -/
def wKReq : QuoteRequest :=
  { base_asset := "X", quote_asset := "Y", amount := 10
    operation_type := ServiceType.Quotes }

/-- The comparison result for `wQ1`/`wReq`. -/
def wRC1 : RateComparison :=
  { best_quote := wQB, all_quotes := [wQA, wQB], comparison_timestamp := 100 }

/-- The comparison result for `wQ2`/`wReq`. -/
def wRC2 : RateComparison :=
  { best_quote := wQB, all_quotes := [wQB, wQA], comparison_timestamp := 100 }

/-! Order lemmas for the quote-comparison key. -/

theorem keyLe_refl (x : Nat × Nat × Nat) : keyLe x x := by
  unfold keyLe; omega

theorem keyLt_le {x y : Nat × Nat × Nat} (h : keyLt x y) : keyLe x y := by
  unfold keyLt at h; unfold keyLe; omega

theorem keyLe_trans {x y z : Nat × Nat × Nat} (h1 : keyLe x y) (h2 : keyLe y z) :
    keyLe x z := by
  unfold keyLe at h1 h2 ⊢; omega

theorem keyLe_of_not_lt {x y : Nat × Nat × Nat} (h : ¬ keyLt x y) : keyLe y x := by
  unfold keyLt at h; unfold keyLe; omega

theorem keyLe_antisymm {x y : Nat × Nat × Nat} (h1 : keyLe x y) (h2 : keyLe y x) :
    x = y := by
  unfold keyLe at h1 h2
  have h3 : x.1 = y.1 ∧ x.2.1 = y.2.1 ∧ x.2.2 = y.2.2 := by omega
  obtain ⟨e1, e2, e3⟩ := h3
  exact Prod.ext e1 (Prod.ext e2 e3)

theorem betterQuote_iff {a b : QuoteData} :
    betterQuote a b = true ↔ keyLt (quoteKey a) (quoteKey b) := by
  simp [betterQuote, keyLt, quoteKey]

/-! The fold selecting the best quote returns a member that is minimal in
the comparison-key order. -/

theorem selectBest_mem (t : List QuoteData) (b : QuoteData) :
    selectBest b t ∈ b :: t := by
  induction t generalizing b with
  | nil => simp [selectBest]
  | cons x xs ih =>
    simp only [selectBest, List.foldl_cons]
    by_cases h : betterQuote x b
    · simp only [h, if_true]
      have h2 := ih x
      simp only [selectBest] at h2
      rcases List.mem_cons.mp h2 with h3 | h3
      · exact List.mem_cons.mpr (.inr (List.mem_cons.mpr (.inl h3)))
      · exact List.mem_cons.mpr (.inr (List.mem_cons.mpr (.inr h3)))
    · simp only [h, if_false]
      have h2 := ih b
      simp only [selectBest] at h2
      rcases List.mem_cons.mp h2 with h3 | h3
      · exact List.mem_cons.mpr (.inl h3)
      · exact List.mem_cons.mpr (.inr (List.mem_cons.mpr (.inr h3)))

theorem selectBest_le (t : List QuoteData) (b : QuoteData) :
    ∀ q ∈ b :: t, keyLe (quoteKey (selectBest b t)) (quoteKey q) := by
  induction t generalizing b with
  | nil =>
    intro q hq
    rcases List.mem_cons.mp hq with h | h
    · subst h; exact keyLe_refl _
    · simp at h
  | cons x xs ih =>
    intro q hq
    simp only [selectBest, List.foldl_cons]
    have hb : keyLe (quoteKey (if betterQuote x b then x else b)) (quoteKey b) := by
      by_cases h : betterQuote x b
      · simp only [h, if_true]; exact keyLt_le (betterQuote_iff.mp h)
      · simp only [h, if_false]; exact keyLe_refl _
    have hx : keyLe (quoteKey (if betterQuote x b then x else b)) (quoteKey x) := by
      by_cases h : betterQuote x b
      · simp only [h, if_true]; exact keyLe_refl _
      · simp only [h, if_false]
        exact keyLe_of_not_lt (fun hc => h (betterQuote_iff.mpr hc))
    have hmin := ih (if betterQuote x b then x else b)
    simp only [selectBest] at hmin
    have hself := hmin _ (List.mem_cons.mpr (.inl rfl))
    rcases List.mem_cons.mp hq with h | h
    · subst h; exact keyLe_trans hself hb
    · rcases List.mem_cons.mp h with h | h
      · subst h; exact keyLe_trans hself hx
      · exact hmin q (List.mem_cons.mpr (.inr h))

/-! Session bookkeeping lemmas. -/

theorem updateSession_fields (s : SystemState) (sess : InteractionSession) :
    (updateSession s sess).audit_log = s.audit_log ∧
    (updateSession s sess).next_log_id = s.next_log_id ∧
    (updateSession s sess).attestations = s.attestations ∧
    (updateSession s sess).next_attestation_id = s.next_attestation_id ∧
    (updateSession s sess).quotes = s.quotes :=
  ⟨rfl, rfl, rfl, rfl, rfl⟩

theorem begin_ok (s : SystemState) (sid : Nat) (t : String) (now : Nat)
    (sess : InteractionSession) (hfind : findSession s sid = some sess) :
    begin_operation_state s sid sess.nonce t now =
      (updateSession s
        { sess with nonce := sess.nonce + 1
                    operation_count := sess.operation_count + 1 },
       .ok { session_id := sess.session_id
             operation_index := sess.operation_count
             operation_type := t
             timestamp := now
             status := "pending"
             result_data := 0 }) := by
  simp [begin_operation_state, hfind, begin_operation]

theorem begin_replay (s : SystemState) (sid n : Nat) (t : String) (now : Nat)
    (sess : InteractionSession) (hfind : findSession s sid = some sess)
    (hn : n ≠ sess.nonce) :
    begin_operation_state s sid n t now = (s, .error .ReplayRejected) := by
  simp [begin_operation_state, hfind, begin_operation, hn]

theorem begin_state_fields (s : SystemState) (sid n : Nat) (t : String) (now : Nat) :
    (begin_operation_state s sid n t now).1.audit_log = s.audit_log ∧
    (begin_operation_state s sid n t now).1.next_log_id = s.next_log_id ∧
    (begin_operation_state s sid n t now).1.attestations = s.attestations ∧
    (begin_operation_state s sid n t now).1.next_attestation_id = s.next_attestation_id ∧
    (begin_operation_state s sid n t now).1.quotes = s.quotes := by
  cases hf : findSession s sid with
  | none =>
    simp [begin_operation_state, hf]
  | some sess =>
    by_cases hn : n = sess.nonce
    · subst hn
      rw [begin_ok s sid t now sess hf]
      exact updateSession_fields s _
    · rw [begin_replay s sid n t now sess hf hn]
      exact ⟨rfl, rfl, rfl, rfl, rfl⟩

theorem find_update (l : List InteractionSession) (sid : Nat)
    (sess sess' : InteractionSession)
    (hfind : l.find? (fun x => x.session_id == sid) = some sess)
    (hid : sess'.session_id = sess.session_id) :
    (l.map (fun x => if x.session_id = sess'.session_id then sess' else x)).find?
        (fun x => x.session_id == sid) = some sess' := by
  induction l with
  | nil => simp at hfind
  | cons x xs ih =>
    by_cases hx : (x.session_id == sid) = true
    · have hfind2 : some x = some sess := by
        simpa [List.find?_cons, hx] using hfind
      have hxs : x = sess := by injection hfind2
      have hxid : x.session_id = sid := by simpa using hx
      have hcond : x.session_id = sess'.session_id := by rw [hid, ← hxs]
      have hbeq : (sess'.session_id == sid) = true := by
        simp [← hcond, hxid]
      simp only [List.map_cons, if_pos hcond, List.find?_cons, hbeq]
    · have hx' : (x.session_id == sid) = false := by
        simpa using hx
      have hfind2 : xs.find? (fun y => y.session_id == sid) = some sess := by
        simpa [List.find?_cons, hx'] using hfind
      have hsid : sess.session_id = sid := by
        simpa using List.find?_some hfind2
      have hxid : ¬ x.session_id = sid := by simpa using hx'
      have hcond : ¬ x.session_id = sess'.session_id := by
        rw [hid, hsid]; exact hxid
      simp only [List.map_cons, if_neg hcond, List.find?_cons, hx']
      exact ih hfind2

theorem findSession_updateSession (s : SystemState) (sid : Nat)
    (sess sess' : InteractionSession)
    (hfind : findSession s sid = some sess)
    (hid : sess'.session_id = sess.session_id) :
    findSession (updateSession s sess') sid = some sess' := by
  unfold findSession at hfind ⊢
  unfold updateSession
  exact find_update s.sessions sid sess sess' hfind hid

/-! Case characterizations of the three session-wrapped operations: each
call either fails returning the untouched input state, or succeeds with an
explicitly described new state. -/

theorem open_session_fields (s : SystemState) (i : Address) (now : Nat) :
    (open_session s i now).1.audit_log = s.audit_log ∧
    (open_session s i now).1.next_log_id = s.next_log_id ∧
    (open_session s i now).1.attestations = s.attestations ∧
    (open_session s i now).1.next_attestation_id = s.next_attestation_id ∧
    (open_session s i now).1.quotes = s.quotes :=
  ⟨rfl, rfl, rfl, rfl, rfl⟩

theorem issue_master (env : Env) (s : SystemState) (issuer subject : Address)
    (ph sig sid n now actor : Nat) :
    (∃ e, issue_attestation env s issuer subject ph sig sid n now actor =
      (s, .error e)) ∨
    (∃ sess,
      findSession s sid = some sess ∧ n = sess.nonce ∧
      issue_attestation env s issuer subject ph sig sid n now actor =
        ({ sessions := (updateSession s
              { sess with nonce := sess.nonce + 1
                          operation_count := sess.operation_count + 1 }).sessions
           attestations := s.attestations ++
             [{ id := s.next_attestation_id, issuer := issuer, subject := subject
                timestamp := now, payload_hash := ph, signature := sig }]
           next_attestation_id := s.next_attestation_id + 1
           quotes := s.quotes
           audit_log := s.audit_log ++
             [{ log_id := s.next_log_id
                session_id := sess.session_id
                operation :=
                  { session_id := sess.session_id
                    operation_index := sess.operation_count
                    operation_type := "attest"
                    timestamp := now
                    status := "success"
                    result_data := s.next_attestation_id }
                actor := actor }]
           next_log_id := s.next_log_id + 1
           next_session_id := s.next_session_id }, .ok s.next_attestation_id) ∧
      env.sigVerify issuer subject ph now sig = true ∧
      (∃ ep, env.endpoints issuer = some ep ∧ ep.is_active = true) ∧
      s.attestations.any (attMatches issuer subject ph now sig) = false) := by
  unfold issue_attestation
  cases hf : findSession s sid with
  | none =>
    simp only [begin_operation_state, hf]
    exact .inl ⟨.UnknownSession, rfl⟩
  | some sess =>
    by_cases hn : n = sess.nonce
    · subst hn
      rw [begin_ok s sid "attest" now sess hf]
      dsimp only
      cases he : env.endpoints issuer with
      | none => exact .inl ⟨.InactiveIssuer, rfl⟩
      | some ep =>
        dsimp only
        by_cases hact : ep.is_active = false
        · rw [if_pos hact]
          exact .inl ⟨.InactiveIssuer, rfl⟩
        · rw [if_neg hact]
          by_cases hsig : env.sigVerify issuer subject ph now sig = false
          · rw [if_pos hsig]
            exact .inl ⟨.InvalidSignature, rfl⟩
          · rw [if_neg hsig]
            by_cases hdup :
                (updateSession s
                  { sess with nonce := sess.nonce + 1
                              operation_count := sess.operation_count + 1 }).attestations.any
                  (attMatches issuer subject ph now sig) = true
            · rw [if_pos hdup]
              exact .inl ⟨.DuplicateAttestation, rfl⟩
            · rw [if_neg hdup]
              refine .inr ⟨sess, rfl, rfl, rfl, ?_, ⟨ep, rfl, ?_⟩, ?_⟩
              · cases hv : env.sigVerify issuer subject ph now sig
                · exact absurd hv hsig
                · rfl
              · cases ha : ep.is_active
                · exact absurd ha hact
                · rfl
              · cases hd : s.attestations.any (attMatches issuer subject ph now sig)
                · rfl
                · exact absurd hd hdup
    · rw [begin_replay s sid n "attest" now sess hf hn]
      dsimp only
      exact .inl ⟨.ReplayRejected, rfl⟩

theorem submit_master (env : Env) (s : SystemState) (anchor : Address)
    (q : QuoteData) (sid n now actor : Nat) :
    (∃ e, submit_quote env s anchor q sid n now actor = (s, .error e)) ∨
    (∃ sess,
      findSession s sid = some sess ∧ n = sess.nonce ∧
      submit_quote env s anchor q sid n now actor =
        ({ sessions := (updateSession s
              { sess with nonce := sess.nonce + 1
                          operation_count := sess.operation_count + 1 }).sessions
           attestations := s.attestations
           next_attestation_id := s.next_attestation_id
           quotes := s.quotes ++ [q]
           audit_log := s.audit_log ++
             [{ log_id := s.next_log_id
                session_id := sess.session_id
                operation :=
                  { session_id := sess.session_id
                    operation_index := sess.operation_count
                    operation_type := "endpoint"
                    timestamp := now
                    status := "success"
                    result_data := q.quote_id }
                actor := actor }]
           next_log_id := s.next_log_id + 1
           next_session_id := s.next_session_id }, .ok ()) ∧
      serviceAuthorized env anchor .Quotes = true ∧
      q.minimum_amount ≤ q.maximum_amount ∧ 0 < q.rate ∧ now < q.valid_until) := by
  unfold submit_quote
  cases hf : findSession s sid with
  | none =>
    simp only [begin_operation_state, hf]
    exact .inl ⟨.UnknownSession, rfl⟩
  | some sess =>
    by_cases hn : n = sess.nonce
    · subst hn
      rw [begin_ok s sid "endpoint" now sess hf]
      dsimp only
      by_cases hauth : serviceAuthorized env anchor .Quotes = false
      · rw [if_pos hauth]
        exact .inl ⟨.UnauthorizedService, rfl⟩
      · rw [if_neg hauth]
        by_cases hrange : q.minimum_amount ≤ q.maximum_amount ∧ 0 < q.rate
        · rw [if_neg (not_not_intro hrange)]
          by_cases hexp : now < q.valid_until
          · rw [if_neg (not_not_intro hexp)]
            refine .inr ⟨sess, rfl, rfl, rfl, ?_, hrange.1, hrange.2, hexp⟩
            cases hv : serviceAuthorized env anchor .Quotes
            · exact absurd hv hauth
            · rfl
          · rw [if_pos hexp]
            exact .inl ⟨.QuoteExpired, rfl⟩
        · rw [if_pos hrange]
          exact .inl ⟨.InvalidQuoteRange, rfl⟩
    · rw [begin_replay s sid n "endpoint" now sess hf hn]
      dsimp only
      exact .inl ⟨.ReplayRejected, rfl⟩

theorem compare_master (env : Env) (s : SystemState) (r : QuoteRequest)
    (sid n now actor : Nat) :
    (∃ e, compare_quotes env s r sid n now actor = (s, .error e)) ∨
    (∃ sess best0 rest,
      findSession s sid = some sess ∧ n = sess.nonce ∧
      s.quotes.filter (eligible env now r) = best0 :: rest ∧
      compare_quotes env s r sid n now actor =
        ({ sessions := (updateSession s
              { sess with nonce := sess.nonce + 1
                          operation_count := sess.operation_count + 1 }).sessions
           attestations := s.attestations
           next_attestation_id := s.next_attestation_id
           quotes := s.quotes
           audit_log := s.audit_log ++
             [{ log_id := s.next_log_id
                session_id := sess.session_id
                operation :=
                  { session_id := sess.session_id
                    operation_index := sess.operation_count
                    operation_type := "comparison"
                    timestamp := now
                    status := "success"
                    result_data := (selectBest best0 rest).quote_id }
                actor := actor }]
           next_log_id := s.next_log_id + 1
           next_session_id := s.next_session_id },
         .ok { best_quote := selectBest best0 rest
               all_quotes := best0 :: rest
               comparison_timestamp := now })) := by
  unfold compare_quotes
  cases hf : findSession s sid with
  | none =>
    simp only [begin_operation_state, hf]
    exact .inl ⟨.UnknownSession, rfl⟩
  | some sess =>
    by_cases hn : n = sess.nonce
    · subst hn
      rw [begin_ok s sid "comparison" now sess hf]
      dsimp only [updateSession]
      cases hq : s.quotes.filter (eligible env now r) with
      | nil =>
        exact .inl ⟨.NoEligibleQuotes, rfl⟩
      | cons best0 rest =>
        exact .inr ⟨sess, best0, rest, rfl, rfl, rfl, rfl⟩
    · rw [begin_replay s sid n "comparison" now sess hf hn]
      dsimp only
      exact .inl ⟨.ReplayRejected, rfl⟩

/-! Every mutating step extends the ledger, quote store and attestation
store in the disciplined way described by the step predicates. -/

theorem step_shape {env : Env} {s s' : SystemState} (h : Step env s s') :
    AuditStep s s' ∧ QuoteStep s s' ∧ AttStep s s' := by
  cases h with
  | open_session initiator now =>
    exact ⟨.inl ⟨rfl, rfl⟩, .inl rfl, .inl ⟨rfl, rfl⟩⟩
  | issue issuer subject ph sig sid n now actor =>
    rcases issue_master env s issuer subject ph sig sid n now actor with
      ⟨e, hE⟩ | ⟨sess, _, _, hS, _⟩
    · rw [hE]
      exact ⟨.inl ⟨rfl, rfl⟩, .inl rfl, .inl ⟨rfl, rfl⟩⟩
    · rw [hS]
      exact ⟨.inr ⟨_, rfl, rfl, rfl⟩, .inl rfl, .inr ⟨_, rfl, rfl, rfl⟩⟩
  | submit anchor q sid n now actor =>
    rcases submit_master env s anchor q sid n now actor with
      ⟨e, hE⟩ | ⟨sess, _, _, hS, _, hmin, hrate, _⟩
    · rw [hE]
      exact ⟨.inl ⟨rfl, rfl⟩, .inl rfl, .inl ⟨rfl, rfl⟩⟩
    · rw [hS]
      exact ⟨.inr ⟨_, rfl, rfl, rfl⟩, .inr ⟨q, rfl, hmin, hrate⟩, .inl ⟨rfl, rfl⟩⟩
  | compare r sid n now actor =>
    rcases compare_master env s r sid n now actor with
      ⟨e, hE⟩ | ⟨sess, best0, rest, _, _, _, hS⟩
    · rw [hE]
      exact ⟨.inl ⟨rfl, rfl⟩, .inl rfl, .inl ⟨rfl, rfl⟩⟩
    · rw [hS]
      exact ⟨.inr ⟨_, rfl, rfl, rfl⟩, .inl rfl, .inl ⟨rfl, rfl⟩⟩

theorem inv_init : Inv initState := by
  refine ⟨rfl, rfl, ?_, ?_⟩ <;> intro x hx <;> simp [initState] at hx

theorem inv_step {env : Env} {s s' : SystemState} (hs : Step env s s')
    (hinv : Inv s) : Inv s' := by
  obtain ⟨hA, hQ, hT⟩ := step_shape hs
  obtain ⟨h1, h2, h3, h4⟩ := hinv
  refine ⟨?_, ?_, ?_, ?_⟩
  · rcases hA with ⟨ha, hn⟩ | ⟨e, ha, he, hn⟩
    · rw [ha, hn]; exact h1
    · rw [ha, hn, h1]; simp
  · rcases hA with ⟨ha, _⟩ | ⟨e, ha, he, _⟩
    · rw [ha]; exact h2
    · have hlen : e.log_id = s.audit_log.length := by rw [he, h1]
      rw [ha]
      simp [List.range_succ, h2, hlen]
  · rcases hT with ⟨ht, hn⟩ | ⟨a, ht, ha, hn⟩
    · rw [ht, hn]; exact h3
    · rw [ht, hn]
      intro x hx
      rcases List.mem_append.mp hx with h | h
      · exact Nat.lt_succ_of_lt (h3 x h)
      · simp at h
        subst h
        omega
  · rcases hQ with hq | ⟨q, hq, hmin, hrate⟩
    · rw [hq]; exact h4
    · rw [hq]
      intro x hx
      rcases List.mem_append.mp hx with h | h
      · exact h4 x h
      · simp at h
        subst h
        exact ⟨hmin, hrate⟩

theorem reachable_inv {env : Env} {s : SystemState} (h : Reachable env s) :
    Inv s := by
  induction h with
  | init => exact inv_init
  | step _ hstep ih => exact inv_step hstep ih

/-- From the ledger-ids-are-a-range invariant, the entry at position `i`
carries exactly `log_id = i`. -/
theorem map_range_get {l : List AuditLog}
    (hmap : l.map AuditLog.log_id = List.range l.length)
    (i : Nat) (hi : i < l.length) : (l.get ⟨i, hi⟩).log_id = i := by
  have h1 : (l.map AuditLog.log_id)[i]? = (List.range l.length)[i]? := by
    rw [hmap]
  rw [List.getElem?_map, List.getElem?_eq_getElem hi,
      List.getElem?_range hi] at h1
  simpa using h1

/-! The claim theorems. -/

/-- C1: for every session the accepted `expected_nonce` values are exactly
`0, 1, 2, …`: a fresh session starts at nonce `0` with no recorded
operations; `begin_operation` with `expected_nonce` equal to the session's
current nonce succeeds, increments the nonce by one and assigns
`operation_index = operation_count`; any other `expected_nonce` fails with
`ReplayRejected` and leaves the whole state — in particular the session —
unchanged. -/
theorem nonce_replay_protection (s : SystemState) (sid n : Nat) (t : String)
    (now : Nat) (sess : InteractionSession)
    (hfind : findSession s sid = some sess) :
    (∀ (s0 : SystemState) (i : Address) (now0 : Nat),
       (open_session s0 i now0).2.nonce = 0 ∧
       (open_session s0 i now0).2.operation_count = 0) ∧
    (n = sess.nonce →
      begin_operation_state s sid n t now =
        (updateSession s
          { sess with nonce := sess.nonce + 1
                      operation_count := sess.operation_count + 1 },
         .ok { session_id := sess.session_id
               operation_index := sess.operation_count
               operation_type := t
               timestamp := now
               status := "pending"
               result_data := 0 }) ∧
      findSession (begin_operation_state s sid n t now).1 sid =
        some { sess with nonce := sess.nonce + 1
                         operation_count := sess.operation_count + 1 }) ∧
    (n ≠ sess.nonce →
      begin_operation_state s sid n t now = (s, .error .ReplayRejected)) := by
  refine ⟨fun s0 i now0 => ⟨rfl, rfl⟩, ?_, ?_⟩
  · intro hn
    subst hn
    refine ⟨begin_ok s sid t now sess hfind, ?_⟩
    rw [begin_ok s sid t now sess hfind]
    exact findSession_updateSession s sid sess _ hfind rfl
  · intro hn
    exact begin_replay s sid n t now sess hfind hn

/-- Witness for C1: in the concrete state `wQ1`, presenting the current
nonce `0` succeeds and bumps the session's nonce and operation count. -/
theorem nonce_replay_protection_witness :
    begin_operation_state wQ1 0 0 "attest" 3 =
      (updateSession wQ1
        { wSessQ with nonce := wSessQ.nonce + 1
                      operation_count := wSessQ.operation_count + 1 },
       .ok { session_id := wSessQ.session_id
             operation_index := wSessQ.operation_count
             operation_type := "attest"
             timestamp := 3
             status := "pending"
             result_data := 0 }) :=
  ((nonce_replay_protection wQ1 0 0 "attest" 3 wSessQ rfl).2.1 rfl).1

/-- C2: in every reachable state the ledger's `log_id` values are exactly
`0, …, length-1` in append order (gapless, strictly increasing, never
reused): entry `i` precedes entry `j` iff its `log_id` is smaller; and
every step only appends to the ledger, never mutating or removing. -/
theorem audit_total_order (env : Env) (s : SystemState)
    (h : Reachable env s) :
    s.audit_log.map AuditLog.log_id = List.range s.audit_log.length ∧
    (∀ i j : Fin s.audit_log.length,
       ((s.audit_log.get i).log_id < (s.audit_log.get j).log_id ↔
         (i : Nat) < (j : Nat))) ∧
    (∀ s', Step env s s' → ∃ tail, s'.audit_log = s.audit_log ++ tail) := by
  obtain ⟨h1, h2, _, _⟩ := reachable_inv h
  refine ⟨h2, ?_, ?_⟩
  · intro i j
    have hi : (s.audit_log.get i).log_id = (i : Nat) := map_range_get h2 i.1 i.2
    have hj : (s.audit_log.get j).log_id = (j : Nat) := map_range_get h2 j.1 j.2
    rw [hi, hj]
  · intro s' hstep
    rcases (step_shape hstep).1 with ⟨ha, _⟩ | ⟨e, ha, _, _⟩
    · exact ⟨[], by simp [ha]⟩
    · exact ⟨[e], ha⟩

/-- Witness for C2 at the reachable state `wS1` (one opened session, one
issued attestation, hence one ledger entry with `log_id = 0`). -/
theorem audit_total_order_witness :
    wS1.audit_log.map AuditLog.log_id = List.range wS1.audit_log.length :=
  (audit_total_order wEnv wS1
    (Reachable.step
      (Reachable.step Reachable.init (Step.open_session initState 5 0))
      (Step.issue wS0 1 3 11 22 0 0 10 5))).1

/-- C10: every `OperationContext` carries a concrete `u64` `result_data`
value, whatever its status: `finalize_operation` always records the
number it is given, audit readers always observe a number, and a context
is nothing but its six concrete fields — there is no absent/`None`
representation, so "no result" is not distinguishable from the value
`0`. -/
theorem result_data_concrete :
    (∀ (ctx : OperationContext) (status : String) (rd : Nat),
       (finalize_operation ctx status rd).result_data = rd ∧
       (finalize_operation ctx status rd).status = status) ∧
    (∀ l : AuditLog, readResult l = l.operation.result_data) ∧
    (∀ c : OperationContext,
       c = { session_id := c.session_id
             operation_index := c.operation_index
             operation_type := c.operation_type
             timestamp := c.timestamp
             status := c.status
             result_data := c.result_data }) :=
  ⟨fun _ _ _ => ⟨rfl, rfl⟩, fun _ => rfl, fun _ => rfl⟩

/-- C3: after a successful `issue_attestation` (so in particular the
signature over `(issuer, subject, payload_hash, timestamp)` verified),
`verify_attestation` with the issued id and the stored hash returns
`true`; with any other hash it returns `false`; and on an id no stored
attestation carries it returns `false`, not an error. `verify_attestation`
reads the state and returns only a `Bool`, so it mutates nothing. -/
theorem attestation_roundtrip (env : Env) (s s' : SystemState)
    (issuer subject : Address) (ph sig sid n now actor aid : Nat)
    (hreach : Reachable env s)
    (hok : issue_attestation env s issuer subject ph sig sid n now actor =
      (s', .ok aid)) :
    verify_attestation s' aid ph = true ∧
    (∀ h2, h2 ≠ ph → verify_attestation s' aid h2 = false) ∧
    (∀ j h2, (∀ a ∈ s'.attestations, a.id ≠ j) →
       verify_attestation s' j h2 = false) := by
  obtain ⟨_, _, hbound, _⟩ := reachable_inv hreach
  rcases issue_master env s issuer subject ph sig sid n now actor with
    ⟨e, hE⟩ | ⟨sess, _, _, hS, _⟩
  · rw [hE] at hok
    exact absurd (congrArg Prod.snd hok) (by simp)
  · rw [hS] at hok
    have hs' := (congrArg Prod.fst hok).symm
    have haid : s.next_attestation_id = aid := by
      have h2 := congrArg Prod.snd hok
      simpa using h2
    subst hs'
    have hnone : s.attestations.find? (fun a => a.id == aid) = none := by
      rw [List.find?_eq_none]
      intro a ha
      have := hbound a ha
      simp only [beq_iff_eq]
      omega
    refine ⟨?_, ?_, ?_⟩
    · simp [verify_attestation, List.find?_append, hnone, haid]
    · intro h2 hne
      simp [verify_attestation, List.find?_append, hnone, haid,
        Ne.symm hne]
    · intro j h2 hnil
      have hfnone :
          (s.attestations ++
            [({ id := s.next_attestation_id, issuer := issuer,
                subject := subject, timestamp := now,
                payload_hash := ph, signature := sig } : Attestation)]).find?
            (fun a => a.id == j) = none := by
        rw [List.find?_eq_none]
        intro a ha
        have := hnil a ha
        simp only [beq_iff_eq]
        exact this
      simp [verify_attestation, hfnone]

/-- Witness for C3: issuing in the concrete reachable state `wS0` and
verifying the stored hash `11` under the allocated id `0` returns true. -/
theorem attestation_roundtrip_witness :
    verify_attestation wS1 0 11 = true :=
  (attestation_roundtrip wEnv wS0 wS1 1 3 11 22 0 0 10 5 0
    (Reachable.step Reachable.init (Step.open_session initState 5 0))
    rfl).1

/-- C7: re-issuing an attestation with the identical
`(issuer, subject, payload_hash, timestamp, signature)` tuple fails with
`DuplicateAttestation`, allocates no second id, stores nothing, and leaves
the state exactly as it was — after the two calls exactly one matching
attestation is stored (assuming, as `issue_attestation` guarantees for its
own success, that none matched before). -/
theorem duplicate_attestation_rejected (env : Env) (s s' : SystemState)
    (issuer subject : Address) (ph sig sid n now actor aid sid2 n2 actor2 : Nat)
    (sess2 : InteractionSession)
    (hok : issue_attestation env s issuer subject ph sig sid n now actor =
      (s', .ok aid))
    (hfind2 : findSession s' sid2 = some sess2)
    (hn2 : n2 = sess2.nonce) :
    issue_attestation env s' issuer subject ph sig sid2 n2 now actor2 =
      (s', .error .DuplicateAttestation) ∧
    s'.attestations.filter (attMatches issuer subject ph now sig) =
      [{ id := aid, issuer := issuer, subject := subject, timestamp := now,
         payload_hash := ph, signature := sig }] := by
  rcases issue_master env s issuer subject ph sig sid n now actor with
    ⟨e, hE⟩ | ⟨sess, _, _, hS, hsig, ⟨ep, hepl, hact⟩, hany⟩
  · rw [hE] at hok
    exact absurd (congrArg Prod.snd hok) (by simp)
  · rw [hS] at hok
    have hs' := (congrArg Prod.fst hok).symm
    have haid : s.next_attestation_id = aid := by
      have h2 := congrArg Prod.snd hok
      simpa using h2
    subst hs'
    subst haid
    have hmem : ∀ a ∈ s.attestations,
        ¬ (attMatches issuer subject ph now sig a = true) := by
      rw [← List.any_eq_false]
      exact hany
    constructor
    · subst hn2
      unfold issue_attestation
      rw [begin_ok _ sid2 "attest" now sess2 hfind2]
      dsimp only [updateSession]
      rw [hepl]
      dsimp only
      rw [if_neg (show ¬ (ep.is_active = false) by simp [hact])]
      rw [if_neg (show ¬ (env.sigVerify issuer subject ph now sig = false) by
        simp [hsig])]
      rw [if_pos (show (s.attestations ++
          [({ id := s.next_attestation_id, issuer := issuer, subject := subject,
              timestamp := now, payload_hash := ph, signature := sig } :
            Attestation)]).any (attMatches issuer subject ph now sig) = true by
        simp [attMatches])]
    · show (s.attestations ++
          [({ id := s.next_attestation_id, issuer := issuer, subject := subject,
              timestamp := now, payload_hash := ph, signature := sig } :
            Attestation)]).filter (attMatches issuer subject ph now sig) = _
      rw [List.filter_append, List.filter_eq_nil_iff.mpr hmem]
      simp [attMatches]

/-- Witness for C7: re-issuing the attestation of `wS1` with the identical
tuple is rejected with `DuplicateAttestation` and the state is returned
untouched. -/
theorem duplicate_attestation_rejected_witness :
    issue_attestation wEnv wS1 1 3 11 22 0 1 10 5 =
      (wS1, .error .DuplicateAttestation) :=
  (duplicate_attestation_rejected wEnv wS0 wS1 1 3 11 22 0 0 10 5 0 0 1 5
    { session_id := 0, initiator := 5, created_at := 0
      operation_count := 1, nonce := 1 }
    rfl rfl rfl).1

/-- C8: every typed failure of a mutating call returns the input state
unchanged — no audit entry, no stored attestation or quote, no nonce or
count bump. In particular issuing against an issuer whose endpoint has
`is_active = false` fails with `InactiveIssuer` and mutates nothing. -/
theorem error_atomicity (env : Env) (s : SystemState) :
    (∀ (issuer subject : Address) (ph sig sid n now actor : Nat)
       (e : AnchorError),
       (issue_attestation env s issuer subject ph sig sid n now actor).2 =
         .error e →
       (issue_attestation env s issuer subject ph sig sid n now actor).1 = s) ∧
    (∀ (anchor : Address) (q : QuoteData) (sid n now actor : Nat)
       (e : AnchorError),
       (submit_quote env s anchor q sid n now actor).2 = .error e →
       (submit_quote env s anchor q sid n now actor).1 = s) ∧
    (∀ (r : QuoteRequest) (sid n now actor : Nat) (e : AnchorError),
       (compare_quotes env s r sid n now actor).2 = .error e →
       (compare_quotes env s r sid n now actor).1 = s) ∧
    (∀ (issuer subject : Address) (ph sig sid n now actor : Nat)
       (sess : InteractionSession) (ep : Endpoint),
       findSession s sid = some sess → n = sess.nonce →
       env.endpoints issuer = some ep → ep.is_active = false →
       issue_attestation env s issuer subject ph sig sid n now actor =
         (s, .error .InactiveIssuer)) := by
  refine ⟨?_, ?_, ?_, ?_⟩
  · intro issuer subject ph sig sid n now actor e he
    rcases issue_master env s issuer subject ph sig sid n now actor with
      ⟨e', hE⟩ | ⟨sess, _, _, hS, _⟩
    · rw [hE]
    · rw [hS] at he
      simp at he
  · intro anchor q sid n now actor e he
    rcases submit_master env s anchor q sid n now actor with
      ⟨e', hE⟩ | ⟨sess, _, _, hS, _⟩
    · rw [hE]
    · rw [hS] at he
      simp at he
  · intro r sid n now actor e he
    rcases compare_master env s r sid n now actor with
      ⟨e', hE⟩ | ⟨sess, best0, rest, _, _, _, hS⟩
    · rw [hE]
    · rw [hS] at he
      simp at he
  · intro issuer subject ph sig sid n now actor sess ep hfind hn hep hact
    subst hn
    unfold issue_attestation
    rw [begin_ok _ sid "attest" now sess hfind]
    dsimp only
    rw [hep]
    dsimp only
    rw [if_pos hact]

/-- Witness for C8: issuer `2` has a deactivated endpoint in `wEnv`, so an
issuance attempt in `wQ1` fails with `InactiveIssuer` and returns `wQ1`
itself — in particular the ledger is untouched. -/
theorem error_atomicity_witness :
    issue_attestation wEnv wQ1 2 3 11 22 0 0 10 5 =
      (wQ1, .error .InactiveIssuer) :=
  (error_atomicity wEnv wQ1).2.2.2 2 3 11 22 0 0 10 5 wSessQ wEp2
    rfl rfl rfl rfl

/-- C5: a successful `compare_quotes` returns in `all_quotes` exactly the
stored quotes matching the asset pair whose anchor is authorized for the
request's operation type, with `valid_until > now` and the requested
amount inside `[minimum_amount, maximum_amount]`; expired or
out-of-range quotes never appear; and the call fails with
`NoEligibleQuotes` exactly when this filtered set is empty. -/
theorem compare_quotes_eligibility (env : Env) (s : SystemState)
    (r : QuoteRequest) (sid n now actor : Nat) (sess : InteractionSession)
    (hfind : findSession s sid = some sess) (hn : n = sess.nonce) :
    ((compare_quotes env s r sid n now actor).2 =
        .error .NoEligibleQuotes ↔
      s.quotes.filter (eligible env now r) = []) ∧
    (∀ s' rc, compare_quotes env s r sid n now actor = (s', .ok rc) →
       ∀ q, q ∈ rc.all_quotes ↔
         (q ∈ s.quotes ∧ q.base_asset = r.base_asset ∧
          q.quote_asset = r.quote_asset ∧
          serviceAuthorized env q.anchor r.operation_type = true ∧
          now < q.valid_until ∧ q.minimum_amount ≤ r.amount ∧
          r.amount ≤ q.maximum_amount)) := by
  subst hn
  unfold compare_quotes
  rw [begin_ok s sid "comparison" now sess hfind]
  dsimp only [updateSession]
  cases hq : s.quotes.filter (eligible env now r) with
  | nil =>
    refine ⟨by simp [hq], ?_⟩
    intro s' rc hok
    exact absurd (congrArg Prod.snd hok) (by simp)
  | cons best0 rest =>
    refine ⟨by simp [hq], ?_⟩
    intro s' rc hok q
    have hrc : rc = { best_quote := selectBest best0 rest
                      all_quotes := best0 :: rest
                      comparison_timestamp := now } := by
      have h2 := congrArg Prod.snd hok
      simpa using h2.symm
    subst hrc
    dsimp only
    rw [← hq, List.mem_filter]
    simp only [eligible, Bool.and_eq_true, decide_eq_true_eq, beq_iff_eq]
    tauto

/-- Witness for C5: in `wQ1` / `wReq` the eligible set is non-empty, so
`compare_quotes` does not fail with `NoEligibleQuotes`. -/
theorem compare_quotes_eligibility_witness :
    (compare_quotes wEnv wQ1 wReq 0 0 100 5).2 =
        .error .NoEligibleQuotes ↔
      wQ1.quotes.filter (eligible wEnv 100 wReq) = [] :=
  (compare_quotes_eligibility wEnv wQ1 wReq 0 0 100 5 wSessQ rfl rfl).1

/-- C4: a successful `compare_quotes` returns a best quote that belongs to
the eligible set and minimizes
`effective_cost = rate × (10000 + fee_percentage) / 10000`, with ties
broken by lower `fee_percentage`, then lower `quote_id`; and two calls
whose eligible sets are permutations of one another (with no two distinct
quotes sharing a full comparison key) select the same best quote — the
result does not depend on storage order. -/
theorem compare_quotes_best (env env2 : Env) (s s2 : SystemState)
    (r r2 : QuoteRequest) (sid n now actor sid2 n2 now2 actor2 : Nat)
    (s' s2' : SystemState) (rc rc2 : RateComparison)
    (h1 : compare_quotes env s r sid n now actor = (s', .ok rc))
    (h2 : compare_quotes env2 s2 r2 sid2 n2 now2 actor2 = (s2', .ok rc2))
    (hperm : rc.all_quotes.Perm rc2.all_quotes)
    (hinj : ∀ a ∈ rc.all_quotes, ∀ b ∈ rc.all_quotes,
       quoteKey a = quoteKey b → a = b) :
    rc.best_quote ∈ rc.all_quotes ∧
    (∀ q ∈ rc.all_quotes, quoteKeyLe rc.best_quote q) ∧
    rc.best_quote = rc2.best_quote := by
  rcases compare_master env s r sid n now actor with
    ⟨e, hE⟩ | ⟨sess, b0, rs, _, _, _, hS⟩
  · rw [hE] at h1
    exact absurd (congrArg Prod.snd h1) (by simp)
  · rw [hS] at h1
    have hrc : rc = { best_quote := selectBest b0 rs
                      all_quotes := b0 :: rs
                      comparison_timestamp := now } := by
      have h3 := congrArg Prod.snd h1
      simpa using h3.symm
    rcases compare_master env2 s2 r2 sid2 n2 now2 actor2 with
      ⟨e, hE2⟩ | ⟨sess2, b02, rs2, _, _, _, hS2⟩
    · rw [hE2] at h2
      exact absurd (congrArg Prod.snd h2) (by simp)
    · rw [hS2] at h2
      have hrc2 : rc2 = { best_quote := selectBest b02 rs2
                          all_quotes := b02 :: rs2
                          comparison_timestamp := now2 } := by
        have h3 := congrArg Prod.snd h2
        simpa using h3.symm
      subst hrc
      subst hrc2
      dsimp only at hperm hinj ⊢
      have m1 := selectBest_mem rs b0
      have m2 := selectBest_mem rs2 b02
      have m2' : selectBest b02 rs2 ∈ b0 :: rs := hperm.mem_iff.mpr m2
      have m1' : selectBest b0 rs ∈ b02 :: rs2 := hperm.mem_iff.mp m1
      have le1 := selectBest_le rs b0 _ m2'
      have le2 := selectBest_le rs2 b02 _ m1'
      exact ⟨m1, fun q hq => selectBest_le rs b0 q hq,
        hinj _ m1 _ m2' (keyLe_antisymm le1 le2)⟩

/-- Witness for C4: `wQ1` and `wQ2` store the same two quotes in opposite
orders; the selected best quote is the same (`wQB`, the cheaper one) and
belongs to the eligible set. -/
theorem compare_quotes_best_witness :
    wRC1.best_quote ∈ wRC1.all_quotes ∧ wRC1.best_quote = wRC2.best_quote :=
  have T := compare_quotes_best wEnv wEnv wQ1 wQ2 wReq wReq 0 0 100 5
    0 0 100 5 (compare_quotes wEnv wQ1 wReq 0 0 100 5).1
    (compare_quotes wEnv wQ2 wReq 0 0 100 5).1 wRC1 wRC2 rfl rfl
    (by decide) (by decide)
  ⟨T.1, T.2.2⟩

/-- C6: every quote ever stored passed validation — in every reachable
state all stored quotes satisfy `minimum_amount ≤ maximum_amount` and
`rate > 0`; steps only append to the quote store (quotes are immutable
once submitted); a successful `submit_quote` implies the full validation
including `valid_until` strictly in the future at submission time; and
violations are rejected with `InvalidQuoteRange` or `QuoteExpired`. -/
theorem quote_validation_invariant (env : Env) (s : SystemState)
    (h : Reachable env s) :
    (∀ q ∈ s.quotes, q.minimum_amount ≤ q.maximum_amount ∧ 0 < q.rate) ∧
    (∀ s', Step env s s' → ∃ tail, s'.quotes = s.quotes ++ tail) ∧
    (∀ (anchor : Address) (q : QuoteData) (sid n now actor : Nat),
       ((submit_quote env s anchor q sid n now actor).2 = .ok () →
          q.minimum_amount ≤ q.maximum_amount ∧ 0 < q.rate ∧
          now < q.valid_until) ∧
       (∀ sess, findSession s sid = some sess → n = sess.nonce →
          serviceAuthorized env anchor .Quotes = true →
          (¬ (q.minimum_amount ≤ q.maximum_amount ∧ 0 < q.rate) →
             submit_quote env s anchor q sid n now actor =
               (s, .error .InvalidQuoteRange)) ∧
          (q.minimum_amount ≤ q.maximum_amount → 0 < q.rate →
             ¬ now < q.valid_until →
             submit_quote env s anchor q sid n now actor =
               (s, .error .QuoteExpired)))) := by
  refine ⟨(reachable_inv h).2.2.2, ?_, ?_⟩
  · intro s' hstep
    rcases (step_shape hstep).2.1 with hq | ⟨q, hq, _, _⟩
    · exact ⟨[], by simp [hq]⟩
    · exact ⟨[q], hq⟩
  · intro anchor q sid n now actor
    constructor
    · intro hok
      rcases submit_master env s anchor q sid n now actor with
        ⟨e, hE⟩ | ⟨sess, _, _, hS, _, hmin, hrate, hexp⟩
      · rw [hE] at hok
        simp at hok
      · exact ⟨hmin, hrate, hexp⟩
    · intro sess hfind hn hauth
      subst hn
      constructor
      · intro hbad
        unfold submit_quote
        rw [begin_ok s sid "endpoint" now sess hfind]
        dsimp only
        rw [if_neg (show ¬ (serviceAuthorized env anchor .Quotes = false) by
          simp [hauth])]
        rw [if_pos hbad]
      · intro hmin hrate hexp
        unfold submit_quote
        rw [begin_ok s sid "endpoint" now sess hfind]
        dsimp only
        rw [if_neg (show ¬ (serviceAuthorized env anchor .Quotes = false) by
          simp [hauth])]
        rw [if_neg (not_not_intro ⟨hmin, hrate⟩)]
        rw [if_pos hexp]

/-- Witness for C6: submitting `wBadQuote` (whose `minimum_amount`
exceeds its `maximum_amount`) in the reachable state `wS0` is rejected
with `InvalidQuoteRange` and the state is returned untouched. -/
theorem quote_validation_invariant_witness :
    submit_quote wEnv wS0 7 wBadQuote 0 0 50 5 =
      (wS0, .error .InvalidQuoteRange) :=
  ((((quote_validation_invariant wEnv wS0
        (Reachable.step Reachable.init (Step.open_session initState 5 0))).2.2
      7 wBadQuote 0 0 50 5).2
      { session_id := 0, initiator := 5, created_at := 0
        operation_count := 0, nonce := 0 }
      rfl rfl rfl).1 (by decide))

/-- Counterexample for C9: `wKReq` carries `Quotes` as its
`operation_type`, and `compare_quotes` nevertheless processes it,
successfully returning a comparison — a `Quotes`-typed request is not
kept out of `compare_quotes`. -/
theorem quote_request_variant_cx :
    wKReq.operation_type = ServiceType.Quotes ∧
    (compare_quotes wEnv wQ1 wKReq 0 0 100 5).2 = .ok wRC1 :=
  ⟨rfl, rfl⟩

/-- C9 (amended): the declared type of `QuoteRequest.operation_type`
admits all four `ServiceType` variants, and `compare_quotes` treats every
variant uniformly through the same eligibility filter — the restriction
to `{Deposits, Withdrawals}` is a caller-side convention, not enforced: a
request of any variant succeeds whenever its eligible set is non-empty. -/
theorem quote_request_variant_amended (env : Env) (s : SystemState)
    (r : QuoteRequest) (sid n now actor : Nat) (sess : InteractionSession)
    (hfind : findSession s sid = some sess) (hn : n = sess.nonce)
    (hne : s.quotes.filter (eligible env now r) ≠ []) :
    (∀ v : ServiceType, ∃ req : QuoteRequest, req.operation_type = v) ∧
    exceptIsOk (compare_quotes env s r sid n now actor).2 = true := by
  refine ⟨fun v => ⟨{ base_asset := "", quote_asset := "", amount := 0
                      operation_type := v }, rfl⟩, ?_⟩
  subst hn
  unfold compare_quotes
  rw [begin_ok s sid "comparison" now sess hfind]
  dsimp only [updateSession]
  cases hq : s.quotes.filter (eligible env now r) with
  | nil => exact absurd hq hne
  | cons best0 rest => rfl

/-- Witness for C9's amended theorem: the `Quotes`-typed request `wKReq`
is processed successfully in `wQ1`. -/
theorem quote_request_variant_amended_witness :
    exceptIsOk (compare_quotes wEnv wQ1 wKReq 0 0 100 5).2 = true :=
  (quote_request_variant_amended wEnv wQ1 wKReq 0 0 100 5 wSessQ rfl rfl
    (by decide)).2

end AnchorKit
